import Mathlib

/-!
Verification of the Vulkan sub-allocator in `src/engine/src/vk_util/alloc.rs`
(region / arena / pool / allocator stack). The Rust code is shallowly embedded:
`u64` values become `Nat`, mutation becomes explicit state passing, and the two
platform calls (`vkAllocateMemory`, `vkMapMemory`) are modelled as always
succeeding, returning a handle that records the requested allocation size.
-/

namespace VkAlloc

/-- `MIN_DEVICE_VK_MEM_SIZE` from alloc.rs: 16 MiB. -/
def MIN_DEVICE_VK_MEM_SIZE : Nat := 16 * 1024 * 1024

/-- `MIN_HOST_VK_MEM_SIZE` from alloc.rs: 4 MiB. -/
def MIN_HOST_VK_MEM_SIZE : Nat := 4 * 1024 * 1024

/-- `fn padding(addr: u64, alignment: u64) -> u64`. -/
def padding (addr alignment : Nat) : Nat :=
  if alignment ≠ 0 then (alignment - addr % alignment) % alignment else 0

/-- `struct MemoryRegion { offset: u64, size: u64 }`. -/
structure MemoryRegion where
  offset : Nat
  size : Nat
deriving DecidableEq, Repr

/-- `enum MemoryType { Device, Host }`. -/
inductive MemoryType where
  | Device
  | Host
deriving DecidableEq, Repr

/-- `struct BlockSource { mem_type: MemoryType, idx: usize }`. -/
structure BlockSource where
  mem_type : MemoryType
  idx : Nat
deriving DecidableEq, Repr

/-- An opaque `vk::DeviceMemory` handle. The model records the size that was
passed to `vkAllocateMemory`, which is otherwise invisible in the Rust struct. -/
structure DeviceMemory where
  size : Nat
deriving DecidableEq, Repr

/-- `struct MemoryBlock`. The mapped pointer is modelled as an address (`Nat`). -/
structure MemoryBlock where
  mem : DeviceMemory
  region : MemoryRegion
  ptr : Option Nat
  source : BlockSource
deriving DecidableEq, Repr

/-- `vk::MemoryRequirements`: size, alignment and the compatible-type bitmask. -/
structure MemoryRequirements where
  size : Nat
  alignment : Nat
  memory_type_bits : Nat
deriving DecidableEq, Repr

/-- `struct VkMemory { mem, free_regions, base_ptr }` — one Arena. -/
structure VkMemory where
  mem : DeviceMemory
  free_regions : List MemoryRegion
  base_ptr : Option Nat
deriving DecidableEq, Repr

/-- The loop body of `VkMemory::alloc`: scan the free-region list in order,
allocate from the first region that fits, shrinking it in place or removing it
on an exact fit. Returns the produced block (if any) and the new list. -/
def allocScan (mem : DeviceMemory) (base_ptr : Option Nat) (req : MemoryRequirements)
    (mt : MemoryType) (idx : Nat) :
    List MemoryRegion → Option MemoryBlock × List MemoryRegion
  | [] => (none, [])
  | region :: rest =>
    let pad := padding region.offset req.alignment
    let padded_size := req.size + pad
    if padded_size ≤ region.size then
      let ptr := base_ptr.map (fun base => base + (region.offset + pad))
      let block : MemoryBlock :=
        ⟨mem, ⟨region.offset + pad, padded_size⟩, ptr, ⟨mt, idx⟩⟩
      if padded_size = region.size then
        (some block, rest)
      else
        (some block, ⟨region.offset + padded_size, region.size - padded_size⟩ :: rest)
    else
      let res := allocScan mem base_ptr req mt idx rest
      (res.1, region :: res.2)

/-- `VkMemory::alloc(&mut self, req, mem_type, idx) -> Option<MemoryBlock>`. -/
def VkMemory.alloc (m : VkMemory) (req : MemoryRequirements) (mt : MemoryType) (idx : Nat) :
    Option MemoryBlock × VkMemory :=
  let res := allocScan m.mem m.base_ptr req mt idx m.free_regions
  (res.1, ⟨m.mem, res.2, m.base_ptr⟩)

/-- The body of `VkMemory::free`: find the first free region at or after the
returning region's end address; merge forward when contiguous, otherwise
insert before it; append at the end when no such region exists. -/
def freeScan (r : MemoryRegion) : List MemoryRegion → List MemoryRegion
  | [] => [r]
  | f :: rest =>
    if f.offset ≥ r.offset + r.size then
      if r.offset + r.size = f.offset then
        ⟨f.offset - r.size, f.size + r.size⟩ :: rest
      else
        r :: f :: rest
    else
      f :: freeScan r rest

/-- `VkMemory::free(&mut self, returning_region: MemoryRegion)`. -/
def VkMemory.free (m : VkMemory) (r : MemoryRegion) : VkMemory :=
  ⟨m.mem, freeScan r m.free_regions, m.base_ptr⟩

/-- `struct VkMemoryManager` — one Pool. -/
structure VkMemoryManager where
  mem_type : MemoryType
  mem_type_idx : Nat
  should_map : Bool
  min_vk_mem_size : Nat
  vk_mems : List VkMemory
deriving DecidableEq, Repr

/-- Models `device.allocate_memory`: the platform call succeeds and hands back
a handle recording the requested size. -/
def allocate_memory (alloc_size : Nat) : DeviceMemory := ⟨alloc_size⟩

/-- Models `device.map_memory`: mapping succeeds; the model places every
mapping at address 0. -/
def map_memory (_mem : DeviceMemory) : Nat := 0

/-- The `find_map` over enumerated arenas in `VkMemoryManager::alloc`:
try `VkMemory::alloc` on each arena in order (indices starting at `k`),
returning the first success together with the updated arena list. -/
def mgrScan (req : MemoryRequirements) (mt : MemoryType) :
    Nat → List VkMemory → Option (MemoryBlock × List VkMemory)
  | _, [] => none
  | k, m :: rest =>
    match m.alloc req mt k with
    | (some b, m1) => some (b, m1 :: rest)
    | (none, m1) =>
      match mgrScan req mt (k + 1) rest with
      | some (b, rest1) => some (b, m1 :: rest1)
      | none => none

/-- `VkMemoryManager::alloc(&mut self, device, req) -> Result<MemoryBlock>`,
with the platform allocation modelled as succeeding. -/
def VkMemoryManager.alloc (mgr : VkMemoryManager) (req : MemoryRequirements) :
    MemoryBlock × VkMemoryManager :=
  match mgrScan req mgr.mem_type 0 mgr.vk_mems with
  | some (b, mems) =>
    (b, ⟨mgr.mem_type, mgr.mem_type_idx, mgr.should_map, mgr.min_vk_mem_size, mems⟩)
  | none =>
    let alloc_size := max req.size mgr.min_vk_mem_size
    let mem := allocate_memory alloc_size
    let base_ptr := if mgr.should_map then some (map_memory mem) else none
    let block : MemoryBlock :=
      ⟨mem, ⟨0, req.size⟩, base_ptr, ⟨mgr.mem_type, mgr.vk_mems.length⟩⟩
    let free_regions :=
      if req.size ≥ mgr.min_vk_mem_size then
        ([] : List MemoryRegion)
      else
        [⟨req.size, mgr.min_vk_mem_size - req.size⟩]
    (block,
      ⟨mgr.mem_type, mgr.mem_type_idx, mgr.should_map, mgr.min_vk_mem_size,
        mgr.vk_mems ++ [⟨mem, free_regions, base_ptr⟩]⟩)

/-- In-place update of the element at position `i`, used to express the
`self.vk_mems[block.source.idx]` mutation of `VkMemoryManager::free`. -/
def modifyIdx (f : α → α) : Nat → List α → List α
  | _, [] => []
  | 0, x :: xs => f x :: xs
  | n + 1, x :: xs => x :: modifyIdx f n xs

/-- `VkMemoryManager::free(&mut self, block)`. -/
def VkMemoryManager.free (mgr : VkMemoryManager) (block : MemoryBlock) : VkMemoryManager :=
  ⟨mgr.mem_type, mgr.mem_type_idx, mgr.should_map, mgr.min_vk_mem_size,
    modifyIdx (fun m => m.free block.region) block.source.idx mgr.vk_mems⟩

/-- `vk::MemoryPropertyFlags::DEVICE_LOCAL`. -/
def DEVICE_LOCAL : Nat := 1

/-- `vk::MemoryPropertyFlags::HOST_VISIBLE`. -/
def HOST_VISIBLE : Nat := 2

/-- `vk::MemoryPropertyFlags::HOST_COHERENT`. -/
def HOST_COHERENT : Nat := 4

/-- `vk::MemoryPropertyFlags::HOST_CACHED`. -/
def HOST_CACHED : Nat := 8

/-- One entry of the physical device's memory-type property table
(`vk::MemoryType`), keeping only the property flags the code reads. -/
structure MemoryTypeEntry where
  property_flags : Nat
deriving DecidableEq, Repr

/-- The allocator errors surfaced by `VkAllocator` (`anyhow` errors in Rust). -/
inductive AllocError where
  | noSuitableMemoryType
  | incompatibleMemoryType
deriving DecidableEq, Repr

/-- `struct VkAllocator { device_mgr, host_mgr }`. -/
structure VkAllocator where
  device_mgr : VkMemoryManager
  host_mgr : VkMemoryManager
deriving DecidableEq, Repr

/-- The enumerated scan inside the `find_memory` closure of `VkAllocator::new`:
first index (counting from `k`) whose property flags equal `props` exactly. -/
def findMemoryScan (props : Nat) : Nat → List MemoryTypeEntry → Option Nat
  | _, [] => none
  | k, t :: rest =>
    if t.property_flags = props then some k else findMemoryScan props (k + 1) rest

/-- The `find_memory` closure in `VkAllocator::new`: first index whose property
flags equal `props` exactly. -/
def find_memory (mem_types : List MemoryTypeEntry) (props : Nat) : Option Nat :=
  findMemoryScan props 0 mem_types

/-- `VkAllocator::new(phys_dev_info)`, taking the memory-type table directly. -/
def VkAllocator.new (mem_types : List MemoryTypeEntry) : Except AllocError VkAllocator :=
  match find_memory mem_types DEVICE_LOCAL with
  | none => .error .noSuitableMemoryType
  | some device_mem_type_idx =>
    match find_memory mem_types (HOST_VISIBLE ||| HOST_CACHED ||| HOST_COHERENT) with
    | none => .error .noSuitableMemoryType
    | some host_mem_type_idx =>
      .ok ⟨⟨.Device, device_mem_type_idx, false, MIN_DEVICE_VK_MEM_SIZE, []⟩,
           ⟨.Host, host_mem_type_idx, true, MIN_HOST_VK_MEM_SIZE, []⟩⟩

/-- `VkAllocator::alloc(&mut self, device, req, mem_type)`. The pair carries
the post-state of the allocator alongside the `Result`. -/
def VkAllocator.alloc (a : VkAllocator) (req : MemoryRequirements) (mt : MemoryType) :
    Except AllocError MemoryBlock × VkAllocator :=
  match mt with
  | .Device =>
    if req.memory_type_bits &&& (1 <<< a.device_mgr.mem_type_idx) = 0 then
      (.error .incompatibleMemoryType, a)
    else
      let res := a.device_mgr.alloc req
      (.ok res.1, ⟨res.2, a.host_mgr⟩)
  | .Host =>
    if req.memory_type_bits &&& (1 <<< a.host_mgr.mem_type_idx) = 0 then
      (.error .incompatibleMemoryType, a)
    else
      let res := a.host_mgr.alloc req
      (.ok res.1, ⟨a.device_mgr, res.2⟩)

/-- `VkAllocator::free(&mut self, block)`. -/
def VkAllocator.free (a : VkAllocator) (block : MemoryBlock) : VkAllocator :=
  match block.source.mem_type with
  | .Device => ⟨a.device_mgr.free block, a.host_mgr⟩
  | .Host => ⟨a.device_mgr, a.host_mgr.free block⟩

/-- Two byte spans overlap when each begins before the other ends. -/
def overlaps (a b : MemoryRegion) : Prop :=
  a.offset < b.offset + b.size ∧ b.offset < a.offset + a.size

instance (a b : MemoryRegion) : Decidable (overlaps a b) := by
  unfold overlaps; infer_instance

/-- Whether a free region can fit the request after alignment padding. -/
def fitsIn (req : MemoryRequirements) (r : MemoryRegion) : Prop :=
  req.size + padding r.offset req.alignment ≤ r.size

instance (req : MemoryRequirements) (r : MemoryRegion) : Decidable (fitsIn req r) := by
  unfold fitsIn; infer_instance

/-- The states a Pool can reach from any starting point with no outstanding
blocks: each `alloc` adds its returned block to the outstanding list, each
`free` consumes one outstanding block. -/
inductive Reach : VkMemoryManager → List MemoryBlock → Prop where
  | init (mgr : VkMemoryManager) : Reach mgr []
  | step_alloc {mgr : VkMemoryManager} {bs : List MemoryBlock}
      (req : MemoryRequirements) (h : Reach mgr bs) :
      Reach (mgr.alloc req).2 ((mgr.alloc req).1 :: bs)
  | step_free {mgr : VkMemoryManager} {bs : List MemoryBlock} {b : MemoryBlock}
      {l1 l2 : List MemoryBlock} (h : Reach mgr bs) (hb : bs = l1 ++ b :: l2) :
      Reach (mgr.free b) (l1 ++ l2)

end VkAlloc

namespace VkAlloc

theorem padding_mod (addr a : Nat) (h : 0 < a) : (addr + padding addr a) % a = 0 := by
  unfold padding
  rw [if_pos (Nat.pos_iff_ne_zero.mp h)]
  rcases Nat.eq_zero_or_pos (addr % a) with h0 | h0
  · rw [h0, Nat.sub_zero, Nat.mod_self, Nat.add_zero, h0]
  · have hlt : addr % a < a := Nat.mod_lt _ h
    rw [Nat.mod_eq_of_lt (show a - addr % a < a by omega)]
    have hd := Nat.div_add_mod addr a
    have he : addr + (a - addr % a) = a * (addr / a + 1) := by
      rw [Nat.mul_add, Nat.mul_one]; omega
    rw [he, Nat.mul_mod_right]

theorem allocScan_fst_some_aligned (mem : DeviceMemory) (bp : Option Nat)
    (req : MemoryRequirements) (mt : MemoryType) (idx : Nat) (h : 0 < req.alignment) :
    ∀ (l : List MemoryRegion) (b : MemoryBlock),
      (allocScan mem bp req mt idx l).1 = some b → b.region.offset % req.alignment = 0 := by
  intro l
  induction l with
  | nil => intro b hb; simp [allocScan] at hb
  | cons region rest ih =>
    intro b hb
    simp only [allocScan] at hb
    split at hb
    · split at hb <;>
      · simp only [Option.some.injEq] at hb
        subst hb
        exact padding_mod region.offset req.alignment h
    · exact ih b hb

theorem mgrScan_some_aligned (req : MemoryRequirements) (mt : MemoryType)
    (h : 0 < req.alignment) :
    ∀ (k : Nat) (l : List VkMemory) (b : MemoryBlock) (mems : List VkMemory),
      mgrScan req mt k l = some (b, mems) → b.region.offset % req.alignment = 0 := by
  intro k l
  induction l generalizing k with
  | nil => intro b mems hb; simp [mgrScan] at hb
  | cons m rest ih =>
    intro b mems hb
    simp only [mgrScan] at hb
    split at hb
    · rename_i m1 heq
      simp only [Option.some.injEq, Prod.mk.injEq] at hb
      have hfst : (allocScan m.mem m.base_ptr req mt k m.free_regions).1 = some b := by
        have := congrArg Prod.fst heq
        simp only [VkMemory.alloc] at this ⊢
        rw [this, hb.1]
      exact allocScan_fst_some_aligned m.mem m.base_ptr req mt k h m.free_regions b hfst
    · split at hb
      · rename_i b1 rest1 heq
        simp only [Option.some.injEq, Prod.mk.injEq] at hb
        obtain ⟨hb1, _⟩ := hb
        subst hb1
        exact ih (k+1) b1 _ heq
      · exact absurd hb (by simp)

theorem mgr_alloc_aligned (mgr : VkMemoryManager) (req : MemoryRequirements)
    (h : 0 < req.alignment) :
    ((mgr.alloc req).1).region.offset % req.alignment = 0 := by
  unfold VkMemoryManager.alloc
  split
  · rename_i b mems heq
    exact mgrScan_some_aligned req mgr.mem_type h 0 mgr.vk_mems b mems heq
  · simp

/-- Claim C3: every successful allocation with positive alignment returns an
offset that is a multiple of the requested alignment, whether it was carved
out of an existing Arena's free list or placed at offset 0 of a fresh Arena. -/
theorem c3_alloc_offset_aligned (a : VkAllocator) (req : MemoryRequirements)
    (mt : MemoryType) (b : MemoryBlock) (halign : 0 < req.alignment)
    (hok : (a.alloc req mt).1 = Except.ok b) :
    b.region.offset % req.alignment = 0 := by
  unfold VkAllocator.alloc at hok
  cases mt <;> simp only at hok <;> split at hok <;>
    simp only [Except.ok.injEq] at hok
  · exact absurd hok (by simp)
  · rw [← hok]; exact mgr_alloc_aligned a.device_mgr req halign
  · exact absurd hok (by simp)
  · rw [← hok]; exact mgr_alloc_aligned a.host_mgr req halign

theorem c3_alloc_offset_aligned_witness :
    0 < (16 : Nat) ∧
      (((⟨⟨.Device, 0, false, MIN_DEVICE_VK_MEM_SIZE, []⟩,
          ⟨.Host, 1, true, MIN_HOST_VK_MEM_SIZE, []⟩⟩ : VkAllocator).alloc
          ⟨300, 16, 3⟩ .Host).1 = Except.ok
            ⟨⟨4194304⟩, ⟨0, 300⟩, some 0, ⟨.Host, 0⟩⟩) ∧
      (0 : Nat) % 16 = 0 := by
  refine ⟨by decide, by rfl, ?_⟩
  exact c3_alloc_offset_aligned
    ⟨⟨.Device, 0, false, MIN_DEVICE_VK_MEM_SIZE, []⟩, ⟨.Host, 1, true, MIN_HOST_VK_MEM_SIZE, []⟩⟩
    ⟨300, 16, 3⟩ .Host ⟨⟨4194304⟩, ⟨0, 300⟩, some 0, ⟨.Host, 0⟩⟩ (by decide) (by rfl)

/-- Claim C8: a request whose compatible-type bitmask excludes the selected Pool's
bound memory-type index fails with the incompatible-memory-type error, and the
allocator state (both Pools, hence every Arena free list) is returned
unchanged. -/
theorem c8_alloc_incompatible_type (a : VkAllocator) (req : MemoryRequirements)
    (mt : MemoryType)
    (hbit : req.memory_type_bits &&&
      (1 <<< (match mt with
              | .Device => a.device_mgr.mem_type_idx
              | .Host => a.host_mgr.mem_type_idx)) = 0) :
    a.alloc req mt = (Except.error AllocError.incompatibleMemoryType, a) := by
  cases mt <;> simp only at hbit <;> simp [VkAllocator.alloc, hbit]

theorem c8_alloc_incompatible_type_witness :
    ((2 : Nat) &&& (1 <<< 0) = 0) ∧
      ((⟨⟨.Device, 0, false, MIN_DEVICE_VK_MEM_SIZE, []⟩,
        ⟨.Host, 1, true, MIN_HOST_VK_MEM_SIZE, []⟩⟩ : VkAllocator).alloc
        ⟨64, 4, 2⟩ .Device =
        (Except.error AllocError.incompatibleMemoryType,
          ⟨⟨.Device, 0, false, MIN_DEVICE_VK_MEM_SIZE, []⟩,
           ⟨.Host, 1, true, MIN_HOST_VK_MEM_SIZE, []⟩⟩)) :=
  ⟨by decide,
    c8_alloc_incompatible_type
      ⟨⟨.Device, 0, false, MIN_DEVICE_VK_MEM_SIZE, []⟩,
       ⟨.Host, 1, true, MIN_HOST_VK_MEM_SIZE, []⟩⟩ ⟨64, 4, 2⟩ .Device (by decide)⟩

/-- Claim C6: when no existing Arena satisfies the request, `VkMemoryManager::alloc`
appends exactly one fresh Arena sized `max(req.size, min_vk_mem_size)`, returns
a block at offset 0 of that Arena, and the fresh Arena's free list is empty
when `req.size >= min_vk_mem_size` and otherwise the single region
`[req.size, min_vk_mem_size)`. -/
theorem c6_alloc_fresh_arena (mgr : VkMemoryManager) (req : MemoryRequirements)
    (hnone : mgrScan req mgr.mem_type 0 mgr.vk_mems = none) :
    (mgr.alloc req).2.vk_mems =
      mgr.vk_mems ++
        [⟨⟨max req.size mgr.min_vk_mem_size⟩,
          (if req.size ≥ mgr.min_vk_mem_size then []
           else [⟨req.size, mgr.min_vk_mem_size - req.size⟩]),
          (if mgr.should_map then some 0 else none)⟩] ∧
    (mgr.alloc req).1.region = ⟨0, req.size⟩ ∧
    (mgr.alloc req).1.mem = ⟨max req.size mgr.min_vk_mem_size⟩ ∧
    (mgr.alloc req).1.source = ⟨mgr.mem_type, mgr.vk_mems.length⟩ := by
  unfold VkMemoryManager.alloc
  rw [hnone]
  simp [allocate_memory, map_memory]

theorem c6_alloc_fresh_arena_witness :
    (mgrScan ⟨300, 16, 1⟩ MemoryType.Device 0 [] = none) ∧
      ((⟨.Device, 0, false, 4194304, []⟩ : VkMemoryManager).alloc
          ⟨300, 16, 1⟩).2.vk_mems =
        [⟨⟨4194304⟩, [⟨300, 4194004⟩], none⟩] := by
  refine ⟨by rfl, ?_⟩
  have h := (c6_alloc_fresh_arena ⟨.Device, 0, false, 4194304, []⟩ ⟨300, 16, 1⟩ (by rfl)).1
  rw [h]
  decide

/-- Claim C7: on a fresh Pool with minimum arena size at least 300, allocating 300
bytes at alignment 16, freeing the returned block, and allocating 300 bytes
again reuses the reclaimed region: the Arena count stays 1. -/
theorem c7_reuse_no_new_arena (mt : MemoryType) (tidx : Nat) (sm : Bool)
    (minSize bits : Nat) (hmin : 300 ≤ minSize) :
    ((((⟨mt, tidx, sm, minSize, []⟩ : VkMemoryManager).alloc ⟨300, 16, bits⟩).2.free
        (((⟨mt, tidx, sm, minSize, []⟩ : VkMemoryManager).alloc ⟨300, 16, bits⟩).1)).alloc
        ⟨300, 16, bits⟩).2.vk_mems.length = 1 := by
  have h16 : padding 0 16 = 0 := by decide
  rcases eq_or_lt_of_le hmin with heq | hlt
  · subst heq
    cases sm <;>
      simp [VkMemoryManager.alloc, mgrScan, VkMemory.alloc, allocScan,
        VkMemoryManager.free, modifyIdx, VkMemory.free, freeScan,
        allocate_memory, map_memory, padding]
  · have hng : ¬ (minSize ≤ 300) := by omega
    have hne : (300 : Nat) ≠ minSize := by omega
    cases sm <;>
      simp [VkMemoryManager.alloc, mgrScan, VkMemory.alloc, allocScan,
        VkMemoryManager.free, modifyIdx, VkMemory.free, freeScan,
        allocate_memory, map_memory, h16, hng, hne, hmin,
        Nat.sub_add_cancel hmin]

theorem c7_reuse_no_new_arena_witness :
    300 ≤ 4194304 ∧
      ((((⟨.Device, 0, false, 4194304, []⟩ : VkMemoryManager).alloc
            ⟨300, 16, 1⟩).2.free
          (((⟨.Device, 0, false, 4194304, []⟩ : VkMemoryManager).alloc
            ⟨300, 16, 1⟩).1)).alloc ⟨300, 16, 1⟩).2.vk_mems.length = 1 :=
  ⟨by decide, c7_reuse_no_new_arena .Device 0 false 4194304 1 (by decide)⟩

theorem allocScan_all_unfit (mem : DeviceMemory) (bp : Option Nat)
    (req : MemoryRequirements) (mt : MemoryType) (idx : Nat) :
    ∀ (l : List MemoryRegion), (∀ x ∈ l, ¬ fitsIn req x) →
      allocScan mem bp req mt idx l = (none, l) := by
  intro l
  induction l with
  | nil => intro _; rfl
  | cons r rest ih =>
    intro hl
    have hr : ¬ (req.size + padding r.offset req.alignment ≤ r.size) := hl r (by simp)
    have hrest := ih (fun x hx => hl x (by simp [hx]))
    simp only [allocScan, if_neg hr, hrest]

theorem allocScan_skip_unfit (mem : DeviceMemory) (bp : Option Nat)
    (req : MemoryRequirements) (mt : MemoryType) (idx : Nat) :
    ∀ (l1 l2 : List MemoryRegion), (∀ x ∈ l1, ¬ fitsIn req x) →
      allocScan mem bp req mt idx (l1 ++ l2) =
        ((allocScan mem bp req mt idx l2).1, l1 ++ (allocScan mem bp req mt idx l2).2) := by
  intro l1 l2
  induction l1 with
  | nil => intro _; rfl
  | cons r rest ih =>
    intro hl
    have hr : ¬ (req.size + padding r.offset req.alignment ≤ r.size) := hl r (by simp)
    have hrest := ih (fun x hx => hl x (by simp [hx]))
    simp only [List.cons_append, allocScan, if_neg hr, List.append_eq, hrest]

theorem allocScan_cons_fit (mem : DeviceMemory) (bp : Option Nat)
    (req : MemoryRequirements) (mt : MemoryType) (idx : Nat)
    (r : MemoryRegion) (l2 : List MemoryRegion) (hfit : fitsIn req r) :
    allocScan mem bp req mt idx (r :: l2) =
      (some ⟨mem,
          ⟨r.offset + padding r.offset req.alignment,
           req.size + padding r.offset req.alignment⟩,
          bp.map (fun base => base + (r.offset + padding r.offset req.alignment)),
          ⟨mt, idx⟩⟩,
        if req.size + padding r.offset req.alignment = r.size then l2
        else ⟨r.offset + (req.size + padding r.offset req.alignment),
              r.size - (req.size + padding r.offset req.alignment)⟩ :: l2) := by
  have hfit' : req.size + padding r.offset req.alignment ≤ r.size := hfit
  simp only [allocScan, if_pos hfit']
  split <;> rfl

/-- Claim C4: `VkMemory::alloc` is first-fit. If no free region fits, the scan
returns no block and the free list is unchanged; if the free list splits as
`l1 ++ r :: l2` with every region of `l1` too small (after padding) and `r`
fitting, the block is carved at `r.offset + padding`, and `r` is removed on an
exact fit and otherwise shrunk by the consumed span, the rest untouched. -/
theorem c4_first_fit (m : VkMemory) (req : MemoryRequirements)
    (mt : MemoryType) (idx : Nat) :
    ((∀ x ∈ m.free_regions, ¬ fitsIn req x) → m.alloc req mt idx = (none, m)) ∧
    (∀ (l1 : List MemoryRegion) (r : MemoryRegion) (l2 : List MemoryRegion),
      m.free_regions = l1 ++ r :: l2 → (∀ x ∈ l1, ¬ fitsIn req x) → fitsIn req r →
      (m.alloc req mt idx).1 =
        some ⟨m.mem,
          ⟨r.offset + padding r.offset req.alignment,
           req.size + padding r.offset req.alignment⟩,
          m.base_ptr.map (fun base => base + (r.offset + padding r.offset req.alignment)),
          ⟨mt, idx⟩⟩ ∧
      (m.alloc req mt idx).2.free_regions =
        l1 ++ (if req.size + padding r.offset req.alignment = r.size then l2
               else ⟨r.offset + (req.size + padding r.offset req.alignment),
                     r.size - (req.size + padding r.offset req.alignment)⟩ :: l2)) := by
  constructor
  · intro hu
    have := allocScan_all_unfit m.mem m.base_ptr req mt idx m.free_regions hu
    simp only [VkMemory.alloc, this]
  · intro l1 r l2 hsplit hu hfit
    have hskip := allocScan_skip_unfit m.mem m.base_ptr req mt idx l1 (r :: l2) hu
    have hcons := allocScan_cons_fit m.mem m.base_ptr req mt idx r l2 hfit
    constructor
    · simp only [VkMemory.alloc, hsplit, hskip, hcons]
    · simp only [VkMemory.alloc, hsplit, hskip, hcons]

theorem c4_first_fit_witness :
    ([⟨4, 9⟩, ⟨20, 40⟩] = ([⟨4, 9⟩] : List MemoryRegion) ++ ⟨20, 40⟩ :: []) ∧
      (∀ x ∈ ([⟨4, 9⟩] : List MemoryRegion), ¬ fitsIn ⟨10, 8, 1⟩ x) ∧
      fitsIn ⟨10, 8, 1⟩ ⟨20, 40⟩ ∧
      ((VkMemory.alloc ⟨⟨64⟩, [⟨4, 9⟩, ⟨20, 40⟩], none⟩ ⟨10, 8, 1⟩ .Device 0).1 =
        some ⟨⟨64⟩, ⟨24, 14⟩, none, ⟨.Device, 0⟩⟩) ∧
      ((VkMemory.alloc ⟨⟨64⟩, [⟨4, 9⟩, ⟨20, 40⟩], none⟩ ⟨10, 8, 1⟩ .Device 0).2.free_regions =
        [⟨4, 9⟩, ⟨34, 26⟩]) := by
  have h := (c4_first_fit ⟨⟨64⟩, [⟨4, 9⟩, ⟨20, 40⟩], none⟩ ⟨10, 8, 1⟩ .Device 0).2
    [⟨4, 9⟩] ⟨20, 40⟩ [] (by decide) (by decide) (by decide)
  refine ⟨by decide, by decide, by decide, ?_, ?_⟩
  · rw [h.1]; decide
  · rw [h.2]; decide

theorem freeScan_skip (r : MemoryRegion) :
    ∀ (l1 l2 : List MemoryRegion), (∀ x ∈ l1, x.offset < r.offset + r.size) →
      freeScan r (l1 ++ l2) = l1 ++ freeScan r l2 := by
  intro l1 l2
  induction l1 with
  | nil => intro _; rfl
  | cons f rest ih =>
    intro hl
    have hf : ¬ (f.offset ≥ r.offset + r.size) := by
      have := hl f (by simp); omega
    have hrest := ih (fun x hx => hl x (by simp [hx]))
    simp only [List.cons_append, freeScan, if_neg hf, List.append_eq, hrest]

/-- Claim C5: `VkMemory::free` merges forward only. With the free list split as
`l1 ++ f :: l2`, every region of `l1` ending strictly before the returning
region's end address and `f` the first region at or past it: when `f` starts
exactly at the end address the two become one region extended backward, and
otherwise the returning region is inserted as a standalone entry just before
`f` — never merged into a preceding region. With no region at or past the end
address, the returning region is appended at the end. -/
theorem c5_free_forward_merge (m : VkMemory) (r : MemoryRegion) :
    ((∀ x ∈ m.free_regions, x.offset < r.offset + r.size) →
      (m.free r).free_regions = m.free_regions ++ [r]) ∧
    (∀ (l1 : List MemoryRegion) (f : MemoryRegion) (l2 : List MemoryRegion),
      m.free_regions = l1 ++ f :: l2 →
      (∀ x ∈ l1, x.offset < r.offset + r.size) →
      r.offset + r.size ≤ f.offset →
      (m.free r).free_regions =
        (if r.offset + r.size = f.offset then
          l1 ++ ⟨f.offset - r.size, f.size + r.size⟩ :: l2
         else l1 ++ r :: f :: l2)) := by
  constructor
  · intro hl
    have h1 : (m.free_regions ++ ([] : List MemoryRegion)) = m.free_regions := by simp
    have := freeScan_skip r m.free_regions [] hl
    rw [h1] at this
    simp only [VkMemory.free, this, freeScan]
  · intro l1 f l2 hsplit hl hge
    have hskip := freeScan_skip r l1 (f :: l2) hl
    have hf : f.offset ≥ r.offset + r.size := hge
    simp only [VkMemory.free, hsplit, hskip, freeScan, if_pos hf]
    split <;> rfl

theorem c5_free_forward_merge_witness :
    (([⟨0, 30⟩, ⟨100, 50⟩] : List MemoryRegion) = [⟨0, 30⟩] ++ ⟨100, 50⟩ :: []) ∧
      (∀ x ∈ ([⟨0, 30⟩] : List MemoryRegion), x.offset < 50 + 50) ∧
      (50 + 50 ≤ 100) ∧
      ((VkMemory.free ⟨⟨200⟩, [⟨0, 30⟩, ⟨100, 50⟩], none⟩ ⟨50, 50⟩).free_regions =
        [⟨0, 30⟩, ⟨50, 100⟩]) := by
  have h := (c5_free_forward_merge ⟨⟨200⟩, [⟨0, 30⟩, ⟨100, 50⟩], none⟩ ⟨50, 50⟩).2
    [⟨0, 30⟩] ⟨100, 50⟩ [] (by decide) (by decide) (by decide)
  refine ⟨by decide, by decide, by decide, ?_⟩
  rw [h]; decide

theorem findMemoryScan_eq_none (props : Nat) :
    ∀ (k : Nat) (l : List MemoryTypeEntry),
      findMemoryScan props k l = none ↔ ∀ t ∈ l, t.property_flags ≠ props := by
  intro k l
  induction l generalizing k with
  | nil => simp [findMemoryScan]
  | cons t rest ih =>
    constructor
    · intro hn
      simp only [findMemoryScan] at hn
      split at hn
      · exact absurd hn (by simp)
      · rename_i hne
        intro x hx
        rcases List.mem_cons.mp hx with rfl | hx
        · exact hne
        · exact ((ih (k + 1)).mp hn) x hx
    · intro hall
      have hne : t.property_flags ≠ props := hall t (by simp)
      simp only [findMemoryScan, if_neg hne]
      exact (ih (k + 1)).mpr (fun x hx => hall x (by simp [hx]))

theorem findMemoryScan_eq_some (props : Nat) :
    ∀ (k : Nat) (l : List MemoryTypeEntry) (j : Nat),
      findMemoryScan props k l = some j →
      ∃ i, ∃ h : i < l.length, j = k + i ∧ (l.get ⟨i, h⟩).property_flags = props := by
  intro k l
  induction l generalizing k with
  | nil => intro j hj; simp [findMemoryScan] at hj
  | cons t rest ih =>
    intro j hj
    simp only [findMemoryScan] at hj
    split at hj
    · rename_i he
      simp only [Option.some.injEq] at hj
      exact ⟨0, by simp, by omega, by simpa using he⟩
    · obtain ⟨i, hi, hjk, hp⟩ := ih (k + 1) j hj
      exact ⟨i + 1, by simpa using hi, by omega, by simpa using hp⟩

/-- Claim C9: `VkAllocator::new` selects memory types by exact property-flag
equality: on success the chosen device index carries exactly `DEVICE_LOCAL`
and the chosen host index exactly `HOST_VISIBLE | HOST_CACHED | HOST_COHERENT`;
whenever the table holds no exact match for either combination (a strict
superset does not count), construction fails with the no-suitable-memory-type
error. -/
theorem c9_new_exact_match (mem_types : List MemoryTypeEntry) :
    (((∀ t ∈ mem_types, t.property_flags ≠ DEVICE_LOCAL) ∨
      (∀ t ∈ mem_types,
        t.property_flags ≠ (HOST_VISIBLE ||| HOST_CACHED ||| HOST_COHERENT))) →
      VkAllocator.new mem_types = Except.error AllocError.noSuitableMemoryType) ∧
    (∀ a, VkAllocator.new mem_types = Except.ok a →
      (∃ h : a.device_mgr.mem_type_idx < mem_types.length,
        (mem_types.get ⟨a.device_mgr.mem_type_idx, h⟩).property_flags = DEVICE_LOCAL) ∧
      (∃ h : a.host_mgr.mem_type_idx < mem_types.length,
        (mem_types.get ⟨a.host_mgr.mem_type_idx, h⟩).property_flags =
          HOST_VISIBLE ||| HOST_CACHED ||| HOST_COHERENT)) := by
  constructor
  · intro hcase
    rcases hcase with hdev | hhost
    · have hn : find_memory mem_types DEVICE_LOCAL = none :=
        (findMemoryScan_eq_none DEVICE_LOCAL 0 mem_types).mpr hdev
      unfold VkAllocator.new
      rw [hn]
    · have hn : find_memory mem_types (HOST_VISIBLE ||| HOST_CACHED ||| HOST_COHERENT) = none :=
        (findMemoryScan_eq_none _ 0 mem_types).mpr hhost
      unfold VkAllocator.new
      rw [hn]
      split <;> rfl
  · intro a ha
    unfold VkAllocator.new at ha
    split at ha
    · exact absurd ha (by simp)
    · rename_i d hd
      split at ha
      · exact absurd ha (by simp)
      · rename_i h hh
        simp only [Except.ok.injEq] at ha
        subst ha
        constructor
        · obtain ⟨i, hi, hik, hp⟩ := findMemoryScan_eq_some DEVICE_LOCAL 0 mem_types d hd
          exact ⟨by simpa [hik] using hi, by simpa [hik] using hp⟩
        · obtain ⟨i, hi, hik, hp⟩ := findMemoryScan_eq_some _ 0 mem_types h hh
          exact ⟨by simpa [hik] using hi, by simpa [hik] using hp⟩

theorem c9_new_exact_match_witness :
    (∀ t ∈ ([⟨3⟩] : List MemoryTypeEntry), t.property_flags ≠ DEVICE_LOCAL) ∧
      VkAllocator.new [⟨3⟩] = Except.error AllocError.noSuitableMemoryType :=
  ⟨by decide, (c9_new_exact_match [⟨3⟩]).1 (Or.inl (by decide))⟩

theorem allocScan_fst_some_source (mem : DeviceMemory) (bp : Option Nat)
    (req : MemoryRequirements) (mt : MemoryType) (idx : Nat) :
    ∀ (l : List MemoryRegion) (b : MemoryBlock),
      (allocScan mem bp req mt idx l).1 = some b → b.source = ⟨mt, idx⟩ := by
  intro l
  induction l with
  | nil => intro b hb; simp [allocScan] at hb
  | cons region rest ih =>
    intro b hb
    simp only [allocScan] at hb
    split at hb
    · split at hb <;>
      · simp only [Option.some.injEq] at hb
        subst hb
        rfl
    · exact ih b hb

theorem mgrScan_some_bounds (req : MemoryRequirements) (mt : MemoryType) :
    ∀ (k : Nat) (l : List VkMemory) (b : MemoryBlock) (mems : List VkMemory),
      mgrScan req mt k l = some (b, mems) →
      b.source.idx < k + l.length ∧ mems.length = l.length := by
  intro k l
  induction l generalizing k with
  | nil => intro b mems hb; simp [mgrScan] at hb
  | cons m rest ih =>
    intro b mems hb
    simp only [mgrScan] at hb
    split at hb
    · rename_i m1 heq
      simp only [Option.some.injEq, Prod.mk.injEq] at hb
      obtain ⟨hb1, hb2⟩ := hb
      have hfst : (allocScan m.mem m.base_ptr req mt k m.free_regions).1 = some b := by
        have := congrArg Prod.fst heq
        simp only [VkMemory.alloc] at this ⊢
        rw [this, hb1]
      have hsrc := allocScan_fst_some_source m.mem m.base_ptr req mt k m.free_regions b hfst
      constructor
      · rw [hsrc]; simp
      · rw [← hb2]; simp
    · split at hb
      · rename_i b1 rest1 heq
        simp only [Option.some.injEq, Prod.mk.injEq] at hb
        obtain ⟨hb1, hb2⟩ := hb
        subst hb1
        obtain ⟨hi1, hi2⟩ := ih (k + 1) b1 rest1 heq
        constructor
        · simp; omega
        · rw [← hb2]; simp [hi2]
      · exact absurd hb (by simp)

theorem mgr_alloc_idx_lt (mgr : VkMemoryManager) (req : MemoryRequirements) :
    ((mgr.alloc req).1).source.idx < (mgr.alloc req).2.vk_mems.length := by
  unfold VkMemoryManager.alloc
  split
  · rename_i b mems heq
    obtain ⟨h1, h2⟩ := mgrScan_some_bounds req mgr.mem_type 0 mgr.vk_mems b mems heq
    simpa [h2] using h1
  · simp

theorem mgr_alloc_len_le (mgr : VkMemoryManager) (req : MemoryRequirements) :
    mgr.vk_mems.length ≤ (mgr.alloc req).2.vk_mems.length := by
  unfold VkMemoryManager.alloc
  split
  · rename_i b mems heq
    obtain ⟨_, h2⟩ := mgrScan_some_bounds req mgr.mem_type 0 mgr.vk_mems b mems heq
    simp [h2]
  · simp

theorem modifyIdx_length (f : α → α) :
    ∀ (i : Nat) (l : List α), (modifyIdx f i l).length = l.length := by
  intro i l
  induction l generalizing i with
  | nil => cases i <;> rfl
  | cons x xs ih => cases i <;> simp [modifyIdx, ih]

theorem mgr_free_len (mgr : VkMemoryManager) (b : MemoryBlock) :
    (mgr.free b).vk_mems.length = mgr.vk_mems.length := by
  unfold VkMemoryManager.free
  simp [modifyIdx_length]

/-- Claim C10: in every reachable Pool state, every outstanding block's recorded
arena index is strictly below the Pool's Arena count — indices are positions
at Arena creation time, the Arena list only grows, and `free` keeps its
length — so the `vk_mems[block.source.idx]` lookup in `VkMemoryManager::free`
is always in bounds. -/
theorem c10_block_idx_in_bounds {mgr : VkMemoryManager} {bs : List MemoryBlock}
    (h : Reach mgr bs) : ∀ b ∈ bs, b.source.idx < mgr.vk_mems.length := by
  induction h with
  | init mgr => intro b hb; simp at hb
  | step_alloc req h ih =>
    rename_i mgr bs
    intro b hb
    rcases List.mem_cons.mp hb with rfl | hb
    · exact mgr_alloc_idx_lt mgr req
    · exact lt_of_lt_of_le (ih b hb) (mgr_alloc_len_le mgr req)
  | step_free h hb ih =>
    rename_i mgr bs b l1 l2
    intro x hx
    rw [mgr_free_len]
    apply ih
    subst hb
    rcases List.mem_append.mp hx with hx | hx
    · exact List.mem_append.mpr (Or.inl hx)
    · exact List.mem_append.mpr (Or.inr (List.mem_cons.mpr (Or.inr hx)))

theorem c10_block_idx_in_bounds_witness :
    (((⟨.Device, 0, false, 64, []⟩ : VkMemoryManager).alloc ⟨8, 4, 1⟩).1).source.idx <
      ((⟨.Device, 0, false, 64, []⟩ : VkMemoryManager).alloc ⟨8, 4, 1⟩).2.vk_mems.length :=
  c10_block_idx_in_bounds (Reach.step_alloc ⟨8, 4, 1⟩ (Reach.init _)) _
    (List.mem_singleton.mpr rfl)

/-- Claim C1 fails on the code: on a fresh host Pool, `alloc(8,1)` followed by
`alloc(16,16)` leaves the free region `[32, 4 MiB)` while the second block's
recorded Region is `[16, 40)` — a free region overlaps an outstanding
allocation, because the block records offset `region.offset + padding` with
size `req.size + padding`, overshooting the consumed span by the padding.
Freeing that block then leaves two mutually overlapping free regions. -/
theorem c1_disjointness_violated :
    let mgr0 : VkMemoryManager := ⟨.Host, 0, true, MIN_HOST_VK_MEM_SIZE, []⟩
    let r1 := mgr0.alloc ⟨8, 1, 1⟩
    let r2 := r1.2.alloc ⟨16, 16, 1⟩
    let m3 := r2.2.free r2.1
    (r2.1.region = ⟨16, 24⟩) ∧
    (∃ m ∈ r2.2.vk_mems, ∃ f ∈ m.free_regions, overlaps f r2.1.region) ∧
    (∃ m ∈ m3.vk_mems, ∃ f1 ∈ m.free_regions, ∃ f2 ∈ m.free_regions,
      f1 ≠ f2 ∧ overlaps f1 f2) := by
  decide

/-- Claim C2 fails on the code: on a fresh host Pool, `alloc(8,1)` followed by an
exact-fit `alloc(4194288,16)` returns a block with recorded region
`[16, 16 + 4194296)`, so `offset + size = 4194312` exceeds the Arena's backing
allocation size `4194304`; the inflated recorded size counts the padding even
though the offset is already advanced past it. -/
theorem c2_containment_violated :
    let mgr0 : VkMemoryManager := ⟨.Host, 0, true, MIN_HOST_VK_MEM_SIZE, []⟩
    let r1 := mgr0.alloc ⟨8, 1, 1⟩
    let r2 := r1.2.alloc ⟨4194288, 16, 1⟩
    (∀ m ∈ r2.2.vk_mems, m.mem.size = 4194304) ∧
    r2.1.mem.size = 4194304 ∧
    r2.1.region.offset + r2.1.region.size = 4194312 := by
  decide

end VkAlloc
